import Mathlib

/-!
Shallow embedding of `lunar.go` (package `lunar`): a solar↔lunar calendar
converter driven by per-year text files.  Go pointers to `Result` records are
modelled by indices into an explicit heap (`Handler.heap`), because the scanner
mutates queued records in place (the lunar-month field of records parsed before
the month was known).  Go maps are modelled as insertion-ordered association
lists with update-in-place semantics (`alistSet`), Go slices of pointers as
`List Nat` of heap indices, and `loadFileFunc` as an environment
`Int → Option (List String)` giving each file-year's lines as delivered by
`bufio.Reader.ReadString`.  Out-of-bounds slice indexing (a Go runtime panic)
is made explicit as the `ParseOut.oob` / `LErr.oob` outcome.
-/

namespace Lunar

/-- Go struct `Date` (lunar.go lines 31-35). -/
structure Date where
  year : Int
  month : Int
  day : Int
deriving DecidableEq, Repr

/-- `Date.Valid` (lunar.go lines 62-64): all three fields non-zero. -/
def Date.Valid (d : Date) : Bool :=
  d.year != 0 && d.month != 0 && d.day != 0

/-- Go struct `Result` (lunar.go lines 22-29).  `Weekday` is an `int` in Go. -/
structure Result where
  date : Date
  lunarDate : Date
  weekday : Int
  weekdayRaw : String
  solarTerm : String
deriving DecidableEq, Repr

/-- Value read through a dangling heap index; unreachable in states produced by
the embedded operations (Go would have a live pointer there). -/
def dummyResult : Result :=
  { date := ⟨0, 0, 0⟩, lunarDate := ⟨0, 0, 0⟩, weekday := 0,
    weekdayRaw := "", solarTerm := "" }

/-- Lookup in an association list modelling a Go map. -/
def alistGet {α β : Type} [DecidableEq α] (k : α) : List (α × β) → Option β
  | [] => none
  | (k', v) :: rest => if k' = k then some v else alistGet k rest

/-- Go map assignment `m[k] = v`: replace the binding in place, or append. -/
def alistSet {α β : Type} [DecidableEq α] (k : α) (v : β) :
    List (α × β) → List (α × β)
  | [] => [(k, v)]
  | (k', v') :: rest =>
      if k' = k then (k, v) :: rest else (k', v') :: alistSet k v rest

/-- Go struct `fileCache` (lunar.go lines 94-97); values are heap indices. -/
structure FileCache where
  dateCache : List (Date × Nat)
  lunarDateCache : List (Date × Nat)
deriving DecidableEq, Repr

def emptyFileCache : FileCache := ⟨[], []⟩

/-- Go struct `Handler` (lunar.go lines 99-101) plus the record heap that
models the `*Result` pointers shared between the caches and the scanner. -/
structure Handler where
  heap : List Result
  cacheMap : List (Int × FileCache)
deriving DecidableEq, Repr

def emptyHandler : Handler := ⟨[], []⟩

/-- `Handler.cache` (lunar.go lines 347-359): insert the record `rid` points to
into both tables of the file-year's cache, creating the cache if absent. -/
def Handler.cacheIns (h : Handler) (fileYear : Int) (rid : Nat) : Handler :=
  let r := h.heap.getD rid dummyResult
  let c := (alistGet fileYear h.cacheMap).getD emptyFileCache
  let c' : FileCache :=
    { dateCache := alistSet r.date rid c.dateCache
      lunarDateCache := alistSet r.lunarDate rid c.lunarDateCache }
  { h with cacheMap := alistSet fileYear c' h.cacheMap }

/-- `Handler.queryCache` (lunar.go lines 361-375): `(loaded, record-or-nil)`. -/
def Handler.queryCache (h : Handler) (fileYear : Int) (d : Date)
    (dateToLunarDate : Bool) : Bool × Option Result :=
  match alistGet fileYear h.cacheMap with
  | none => (false, none)
  | some c =>
      let rid? := if dateToLunarDate then alistGet d c.dateCache
                  else alistGet d c.lunarDateCache
      (true, rid?.map fun i => h.heap.getD i dummyResult)

/-- Whitespace per Go `unicode.IsSpace`, restricted to the ASCII space
characters that can occur in the calendar files. -/
def goIsSpace (c : Char) : Bool :=
  c = ' ' || c = '\t' || c = '\n' || c = '\x0b' || c = '\x0c' || c = '\r'

def goFieldsAux (cur : List Char) : List Char → List String
  | [] => if cur = [] then [] else [String.mk cur.reverse]
  | c :: cs =>
      if goIsSpace c then
        if cur = [] then goFieldsAux [] cs
        else String.mk cur.reverse :: goFieldsAux [] cs
      else goFieldsAux (c :: cur) cs

/-- Go `strings.Fields`: split on runs of whitespace, no empty tokens. -/
def goFields (s : String) : List String := goFieldsAux [] s.data

/-- `lunarMap` (lunar.go lines 75-90); a Go map lookup yields the zero value
`0` for any character outside the table. -/
def lunarMap (c : Char) : Int :=
  if c = '天' then 0 else if c = '初' then 0
  else if c = '正' then 1 else if c = '一' then 1
  else if c = '二' then 2 else if c = '廿' then 2
  else if c = '三' then 3 else if c = '四' then 4
  else if c = '五' then 5 else if c = '六' then 6
  else if c = '七' then 7 else if c = '八' then 8
  else if c = '九' then 9 else if c = '十' then 10
  else 0

/-- Outcome of the numeral-decoding block of `parseLine`
(lunar.go lines 274-306). -/
structure Decoded where
  value : Int
  isMonth : Bool
  yearInc : Bool
deriving DecidableEq, Repr

/-- The numeral decoder inlined in `parseLine` (lunar.go lines 274-300):
strip a leading `閏`, strip a trailing `月` (setting `isMonth`), map the last
character to the units digit (`正` also signals a lunar-year increment), and
when more than one character remains map the first to the tens digit,
collapsing `十` to 1 and decrementing a non-zero tens digit when the units
character is the solitary `十`.  `none` models the index-out-of-range panic on
an input that is empty after stripping. -/
def decodeNumeral (tok : List Char) : Option Decoded :=
  let rs := match tok with
    | c :: rest => if c = '閏' then rest else c :: rest
    | [] => []
  let p : Bool × List Char := match rs.getLast? with
    | some c => if c = '月' then (true, rs.dropLast) else (false, rs)
    | none => (false, rs)
  match p.2.getLast? with
  | none => none
  | some lastChar =>
      let unitDigit := lunarMap lastChar
      let tensDigit : Int :=
        if p.2.length > 1 then
          let t := lunarMap (p.2.headD ' ')
          let t := if t = 10 then 1 else t
          if t ≠ 0 && unitDigit == 10 then t - 1 else t
        else 0
      some { value := tensDigit * 10 + unitDigit
             isMonth := p.1
             yearInc := lastChar = '正' }

def isDigitChar (c : Char) : Bool := '0' ≤ c ∧ c ≤ '9'

def digitVal (c : Char) : Nat := c.toNat - '0'.toNat

/-- Take exactly `n` decimal digits (Go `time` package fixed-width number). -/
def takeDigits : Nat → List Char → Option (Nat × List Char)
  | 0, cs => some (0, cs)
  | _ + 1, [] => none
  | n + 1, c :: cs =>
      if isDigitChar c then
        match takeDigits n cs with
        | some (v, rest) => some (digitVal c * 10 ^ n + v, rest)
        | none => none
      else none

/-- Go `time` package `getnum` with `fixed = false`: one digit, or greedily
two when the next character is also a digit. -/
def getnum12 : List Char → Option (Nat × List Char)
  | [] => none
  | [c] => if isDigitChar c then some (digitVal c, []) else none
  | c1 :: c2 :: rest =>
      if isDigitChar c1 then
        if isDigitChar c2 then some (digitVal c1 * 10 + digitVal c2, rest)
        else some (digitVal c1, c2 :: rest)
      else none

def expectChar (c : Char) : List Char → Option (List Char)
  | [] => none
  | c' :: rest => if c' = c then some rest else none

def isLeapYear (y : Int) : Bool :=
  y % 4 = 0 && (y % 100 != 0 || y % 400 = 0)

/-- Days in a month, as Go `time.daysIn` (Feb 29 in leap years). -/
def daysIn (year month : Int) : Int :=
  if month = 2 then (if isLeapYear year then 29 else 28)
  else if month = 4 || month = 6 || month = 9 || month = 11 then 30
  else 31

/-- Go `time.Parse` with layout `"2006年1月2日"` (`padded = false`) or
`"2006年01月02日"` (`padded = true`), reduced to the fields the program reads:
a four-digit year, the two literal-separated numbers, a trailing-text check,
and the month/day range checks `time.Parse` performs. -/
def goParseDateChars (padded : Bool) (cs : List Char) : Option Date :=
  match takeDigits 4 cs with
  | none => none
  | some (y, cs) =>
      match expectChar '年' cs with
      | none => none
      | some cs =>
          match (if padded then takeDigits 2 cs else getnum12 cs) with
          | none => none
          | some (m, cs) =>
              match expectChar '月' cs with
              | none => none
              | some cs =>
                  match (if padded then takeDigits 2 cs else getnum12 cs) with
                  | none => none
                  | some (d, cs) =>
                      match expectChar '日' cs with
                      | none => none
                      | some cs =>
                          if cs = [] ∧ 1 ≤ (m : Int) ∧ (m : Int) ≤ 12 ∧
                              1 ≤ (d : Int) ∧ (d : Int) ≤ daysIn y m then
                            some ⟨(y : Int), (m : Int), (d : Int)⟩
                          else none

def goParseDate (padded : Bool) (s : String) : Option Date :=
  goParseDateChars padded s.data

/-- `fileDateFormat` (lunar.go lines 66-73): zero-padded layout for
file-years at or before 2010. -/
def paddedFormat (year : Int) : Bool := year ≤ 2010

/-- Outcome of one `parseLine` call (lunar.go lines 268-345).  `blank` is the
`(nil, nil, nil)` return for a field-less line; `oob` is an index-out-of-range
panic (the handler at the moment of the crash is not observable); `fmtError`
carries the handler because the queue flush mutates it before the date text is
parsed; `ok` carries the handler, the heap index of the new record, and the
new pending queue. -/
inductive ParseOut where
  | blank
  | oob
  | fmtError (h : Handler)
  | ok (h : Handler) (rid : Nat) (newQueue : List Nat)
deriving DecidableEq, Repr

/-- The in-place update `v.LunarDate.Month = tmpLunarMonth`
(lunar.go line 316). -/
def setLunarMonth (r : Result) (tmp : Int) : Result :=
  { r with lunarDate := { r.lunarDate with month := tmp } }

/-- The flush loop of `parseLine` (lunar.go lines 315-318): set each queued
record's lunar month to `tmp` in place, then insert it into the file-year's
cache. -/
def flushQueue (h : Handler) (fileYear tmp : Int) : List Nat → Handler
  | [] => h
  | v :: rest =>
      let h' : Handler := { h with
        heap := h.heap.set v (setLunarMonth (h.heap.getD v dummyResult) tmp) }
      flushQueue (h'.cacheIns fileYear v) fileYear tmp rest

/-- The tail of `parseLine` after the flush, split on the outcome of the
date-text parse (lunar.go lines 322-344): a date-text mismatch returns
`fmtError`; a missing third field is an index panic; a record built while
`lunarMonth = 0` is appended to the original queue (Go appends to the
pre-flush slice at line 339), otherwise it is cached immediately. -/
def parseLineCore (h1 : Handler) (dt? : Option Date) (rest : List String)
    (fileYear lunarYear lunarMonth lunarDay : Int) (flushed : Bool)
    (queue : List Nat) : ParseOut :=
  match dt? with
  | none => .fmtError h1
  | some dt =>
      match rest with
      | [] => .oob
      | f2 :: rest2 =>
          let r : Result :=
            { date := dt
              lunarDate := ⟨lunarYear, lunarMonth, lunarDay⟩
              weekday := lunarMap (f2.data.getLastD ' ')
              weekdayRaw := f2
              solarTerm := match rest2 with | [] => "" | s :: _ => s }
          let rid := h1.heap.length
          let h2 : Handler := { h1 with heap := h1.heap ++ [r] }
          if lunarMonth = 0 then .ok h2 rid (queue ++ [rid])
          else .ok (h2.cacheIns fileYear rid) rid (if flushed then [] else queue)

/-- `parseLine` after tokenisation and numeral decoding (lunar.go lines
302-344): `lunarYear`, `lunarMonth`, `lunarDay` are the already-updated
running values (`lunarMonth = decoded month`, `lunarDay = 1` on a month
marker).  The queue is flushed before the date text is parsed. -/
def parseLineRest (h : Handler) (f0 : String) (rest : List String)
    (fileYear lunarYear lunarMonth lunarDay : Int) (isMonth : Bool)
    (queue : List Nat) : ParseOut :=
  let flushed := isMonth && !(queue = [])
  let tmp := if lunarMonth - 1 = 0 then 12 else lunarMonth - 1
  parseLineCore (if flushed then flushQueue h fileYear tmp queue else h)
    (goParseDate (paddedFormat fileYear) f0) rest fileYear
    lunarYear lunarMonth lunarDay flushed queue

/-- `Handler.parseLine` (lunar.go lines 268-345). -/
def parseLine (h : Handler) (line : String) (fileYear lunarYear lunarMonth : Int)
    (queue : List Nat) : ParseOut :=
  match goFields line with
  | [] => .blank
  | [_] => .oob
  | f0 :: f1 :: rest =>
      match decodeNumeral f1.data with
      | none => .oob
      | some dec =>
          parseLineRest h f0 rest fileYear
            (if dec.yearInc then lunarYear + 1 else lunarYear)
            (if dec.isMonth then dec.value else lunarMonth)
            (if dec.isMonth then 1 else dec.value)
            dec.isMonth queue

/-- The error values the engine can surface: `notFound` is `ErrNotFound`,
`ioErr` a `loadFileFunc` failure, `fmtErr` the wrapped `time.Parse` error,
`eofErr` the reader error from `prepareReader` on a file shorter than its
three-line header, and `oob` an index-out-of-range panic. -/
inductive LErr where
  | notFound
  | ioErr
  | fmtErr
  | eofErr
  | oob
deriving DecidableEq, Repr

/-- `prepareReader` (lunar.go lines 377-389): skip the three header lines,
failing when the file is shorter. -/
def prepareReader (lines : List String) : Option (List String) :=
  if lines.length < 3 then none else some (lines.drop 3)

/-- The scan loop of `Handler.find` (lunar.go lines 221-259).  State carried
across lines: the running lunar year and month, the pending queue and the
candidate result, the latter two as heap indices because Go holds pointers
whose records a later flush mutates in place.  After a successful parse the
running state is reloaded from the new record (line 238), the match checks run
(lines 240-256: direct key comparison, plus — on a flush, recognised as
"queue was non-empty and the returned queue is empty" — a comparison of each
flushed record's now-rewritten lunar date, which on success selects the
current line's record `res`, not the flushed record), and the queue is
replaced. -/
def findAux (d : Date) (dateToLunarDate : Bool) (fileYear : Int) (h : Handler) :
    List String → Int → Int → List Nat → Option Nat →
    Handler × Int × Except LErr Nat
  | [], _, lm, _, resIdx =>
      match resIdx with
      | none => (h, lm, .error .notFound)
      | some i =>
          if ((h.heap.getD i dummyResult).lunarDate).Valid then (h, lm, .ok i)
          else (h, lm, .error .notFound)
  | line :: rest, ly, lm, queue, resIdx =>
      match parseLine h line fileYear ly lm queue with
      | .blank => findAux d dateToLunarDate fileYear h rest ly lm queue resIdx
      | .oob => (h, lm, .error .oob)
      | .fmtError h' => (h', lm, .error .fmtErr)
      | .ok h' rid newQueue =>
          let res := h'.heap.getD rid dummyResult
          let resIdx1 :=
            if dateToLunarDate then
              if res.date = d then some rid else resIdx
            else
              let r1 := if res.lunarDate = d then some rid else resIdx
              if queue ≠ [] ∧ newQueue = [] then
                if queue.any
                    (fun v => (h'.heap.getD v dummyResult).lunarDate = d) then
                  some rid
                else r1
              else r1
          findAux d dateToLunarDate fileYear h' rest
            res.lunarDate.year res.lunarDate.month newQueue resIdx1

/-- `Handler.find` (lunar.go lines 213-266): skip the header, scan every line,
and return the candidate record — or `ErrNotFound` when there is none or its
lunar date has a zero field.  Also returns the final value of the
`*lunarMonth` out-parameter, which `LunarDateToDate` shares between its two
attempts. -/
def find (h : Handler) (fileLines : List String) (d : Date)
    (dateToLunarDate : Bool) (fileYear lunarYear lunarMonth : Int) :
    Handler × Int × Except LErr Result :=
  match prepareReader fileLines with
  | none => (h, lunarMonth, .error .eofErr)
  | some rest =>
      match findAux d dateToLunarDate fileYear h rest lunarYear lunarMonth [] none with
      | (h', lm, .ok i) => (h', lm, .ok (h'.heap.getD i dummyResult))
      | (h', lm, .error e) => (h', lm, .error e)

instance exceptDecEq {ε α : Type} [DecidableEq ε] [DecidableEq α] :
    DecidableEq (Except ε α)
  | .error e, .error e' =>
      if h : e = e' then .isTrue (by rw [h])
      else .isFalse (fun w => h (by injection w))
  | .error _, .ok _ => .isFalse (fun w => Except.noConfusion w)
  | .ok _, .error _ => .isFalse (fun w => Except.noConfusion w)
  | .ok a, .ok a' =>
      if h : a = a' then .isTrue (by rw [h])
      else .isFalse (fun w => h (by injection w))

/-- The `loadFileFunc` collaborator: file-year ↦ lines of `T<year>c.txt`. -/
def Env : Type := Int → Option (List String)

/-- `Handler.DateToLunarDate` (lunar.go lines 151-165).  Returns the new
handler, the list of file-years passed to `loadFileFunc` (in call order), and
the outcome.  A cached file-year that lacks the queried date falls through to
a fresh load and scan. -/
def DateToLunarDate (env : Env) (h : Handler) (d : Date) :
    Handler × List Int × Except LErr Result :=
  match h.queryCache d.year d true with
  | (true, some r) => (h, [], .ok r)
  | _ =>
      match env d.year with
      | none => (h, [d.year], .error .ioErr)
      | some f =>
          match find h f d true d.year (d.year - 1) 0 with
          | (h', _, out) => (h', [d.year], out)

/-- The second file-year attempt of `Handler.LunarDateToDate`
(lunar.go lines 196-210), entered with the cache state, the file-years read
so far, and the current value of the shared `lunarMonth` variable. -/
def LunarDateToDatePhase2 (env : Env) (h : Handler) (d : Date)
    (reads : List Int) (lunarMonth : Int) :
    Handler × List Int × Except LErr Result :=
  match h.queryCache (d.year + 1) d false with
  | (true, some r) => (h, reads, .ok r)
  | (true, none) => (h, reads, .error .notFound)
  | (false, _) =>
      match env (d.year + 1) with
      | none => (h, reads ++ [d.year + 1], .error .ioErr)
      | some f1 =>
          match find h f1 d false (d.year + 1) d.year lunarMonth with
          | (h', _, out) => (h', reads ++ [d.year + 1], out)

/-- `Handler.LunarDateToDate` (lunar.go lines 171-211): cache lookup for
file-year `d.year`, a scan of that file when the year was never loaded, then
the same for file-year `d.year + 1` — with the single `lunarMonth` variable
(initially 0) shared by address between the two `find` calls. -/
def LunarDateToDate (env : Env) (h : Handler) (d : Date) :
    Handler × List Int × Except LErr Result :=
  match h.queryCache d.year d false with
  | (true, some r) => (h, [], .ok r)
  | (true, none) => LunarDateToDatePhase2 env h d [] 0
  | (false, _) =>
      match env d.year with
      | none => (h, [d.year], .error .ioErr)
      | some f =>
          match find h f d false d.year (d.year - 1) 0 with
          | (h1, _, .ok r) => (h1, [d.year], .ok r)
          | (h1, lm1, .error e) =>
              if e = .notFound then LunarDateToDatePhase2 env h1 d [d.year] lm1
              else (h1, [d.year], .error e)

/-- The collection step of `Handler.getSolarTerms` (lunar.go lines 135-141):
the filter applied to each cached record of file-year `y`. -/
def matchesTerm (year : Int) (filt : Option (Result → Bool)) (r : Result) :
    Bool :=
  r.solarTerm != "" && r.lunarDate.year == year &&
    (match filt with | none => true | some f => f r)

def collectTerms (h : Handler) (year y : Int) (filt : Option (Result → Bool)) :
    List Result :=
  ((alistGet y h.cacheMap).getD emptyFileCache).lunarDateCache.filterMap
    fun p =>
      let r := h.heap.getD p.2 dummyResult
      if matchesTerm year filt r then some r else none

/-- `Handler.getSolarTerms` (lunar.go lines 127-145): for `y` in
`[year, year+1]`, populate the cache via `DateToLunarDate(NewDate(y,1,1))`
(propagating its error) and collect every cached record of file-year `y` with
a non-empty solar-term label and lunar year `year` that passes the filter.
Go iterates the cache map in unspecified order; the association list gives one
linearisation of it. -/
def getSolarTermsGo (env : Env) (h : Handler) (year : Int)
    (filt : Option (Result → Bool)) : Handler × Except LErr (List Result) :=
  match DateToLunarDate env h ⟨year, 1, 1⟩ with
  | (h1, _, .error e) => (h1, .error e)
  | (h1, _, .ok _) =>
      let res1 := collectTerms h1 year year filt
      match DateToLunarDate env h1 ⟨year + 1, 1, 1⟩ with
      | (h2, _, .error e) => (h2, .error e)
      | (h2, _, .ok _) =>
          (h2, .ok (res1 ++ collectTerms h2 year (year + 1) filt))

/-- `Handler.GetSolarTerms` (lunar.go lines 113-125): an empty name list means
no filter, otherwise keep records whose label is in the name set. -/
def GetSolarTermsGo (env : Env) (h : Handler) (year : Int)
    (names : List String) : Handler × Except LErr (List Result) :=
  if names = [] then getSolarTermsGo env h year none
  else getSolarTermsGo env h year (some fun r => names.contains r.solarTerm)

/-- Projection used to state facts uniformly over the scan outcomes that
carry a handler. -/
def parseOutHandler : ParseOut → Handler → Handler
  | .fmtError h', _ => h'
  | .ok h' _ _, _ => h'
  | _, h => h

/-- Projection of the pending queue a successful `parseLine` returns. -/
def parseOutQueue : ParseOut → Option (List Nat)
  | .ok _ _ q => some q
  | _ => none

/-! Concrete scan inputs used to instantiate the theorems below.  Each file is
the line list of a `T<year>c.txt`: three header lines, then data lines in the
source-text format (file-years ≤ 2010 use the zero-padded date layout). -/

/-- File-year 2001: one month-marker day line (二月 = lunar month 2). -/
def fileMarkerA : List String :=
  ["h\n", "h\n", "h\n", "2001年01月01日 二月 一\n"]

def envA : Env := fun y => if y = 2001 then some fileMarkerA else none

/-- The record the scan of `fileMarkerA` produces. -/
def recA : Result := ⟨⟨2001, 1, 1⟩, ⟨2000, 2, 1⟩, 1, "一", ""⟩

/-- The handler state after a full scan of file-year 2001 of `envA`. -/
def handlerA : Handler :=
  (find emptyHandler fileMarkerA ⟨2001, 1, 1⟩ true 2001 2000 0).1

/-- File-year 2001: one 正月 day line, so the record's lunar year is 2001. -/
def fileZhengA : List String :=
  ["h\n", "h\n", "h\n", "2001年01月24日 正月 一\n"]

def envZ : Env := fun y => if y = 2001 then some fileZhengA else none

def recZ : Result := ⟨⟨2001, 1, 24⟩, ⟨2001, 1, 1⟩, 1, "一", ""⟩

def handlerZ : Handler :=
  (find emptyHandler fileZhengA ⟨2001, 1, 24⟩ true 2001 2000 0).1

def cacheZ : FileCache := ⟨[(⟨2001, 1, 24⟩, 0)], [(⟨2001, 1, 1⟩, 0)]⟩

/-- File-year 2001: a day line before the first month marker (deferred
month), then the marker 三月. -/
def fileDeferredA : List String :=
  ["h\n", "h\n", "h\n", "2001年01月05日 初五 一\n", "2001年01月06日 三月 二\n"]

/-- A record whose lunar month is still the unresolved sentinel 0. -/
def recQ : Result := ⟨⟨2001, 1, 7⟩, ⟨2000, 0, 5⟩, 1, "一", ""⟩

/-- A handler holding `recQ` at heap index 0, queued as month-unresolved. -/
def handlerQ : Handler := ⟨[recQ], []⟩

/-- A month-marker line whose marker decodes to month 0 (`天月`). -/
def lineZeroMarker : String := "2001年01月08日 天月 一\n"

/-- A month-marker line announcing lunar month 3. -/
def lineMarker3 : String := "2001年01月08日 三月 一\n"

/-- File-year 2000 with one day line of lunar year 1999. -/
def fileY2000 : List String :=
  ["h\n", "h\n", "h\n", "2000年01月01日 二月 一\n"]

/-- File-year 2001 holding the lunar date (2000, 11, 1). -/
def fileY2001b : List String :=
  ["h\n", "h\n", "h\n", "2001年01月01日 十一月 二\n"]

def envB : Env := fun y =>
  if y = 2000 then some fileY2000
  else if y = 2001 then some fileY2001b else none

/-- File-year 2001 whose second data line has an unparsable date field. -/
def fileBad2001 : List String :=
  ["h\n", "h\n", "h\n", "2001年01月01日 正月 一\n", "x 初二 二\n",
   "2001年01月03日 初三 三\n"]

def fileY2002e : List String :=
  ["h\n", "h\n", "h\n", "2002年12月31日 十一月 一\n"]

def envE : Env := fun y =>
  if y = 2001 then some fileBad2001
  else if y = 2002 then some fileY2002e else none

/-- File-year 2001 ending in lunar month 5. -/
def fileY2001c : List String :=
  ["h\n", "h\n", "h\n", "2001年01月01日 五月 一\n"]

/-- File-year 2002: a deferred day line, then the marker 三月. -/
def fileY2002c : List String :=
  ["h\n", "h\n", "h\n", "2002年01月01日 初五 一\n", "2002年01月02日 三月 二\n"]

def envC : Env := fun y =>
  if y = 2001 then some fileY2001c
  else if y = 2002 then some fileY2002c else none

/-- File-year 2001 with a solar-term label on its day line. -/
def fileY2001t : List String :=
  ["h\n", "h\n", "h\n", "2001年01月01日 三月 一 冬至\n"]

def envT : Env := fun y =>
  if y = 2000 then some fileY2000
  else if y = 2001 then some fileY2001t else none

/-- The solar-term record produced from `fileY2001t`. -/
def recT : Result := ⟨⟨2001, 1, 1⟩, ⟨2000, 3, 1⟩, 1, "一", "冬至"⟩

/-- First file-year attempt of the cross-year lookup for (2000, 11, 1). -/
def findB1 : Handler × Int × Except LErr Result :=
  find emptyHandler fileY2000 ⟨2000, 11, 1⟩ false 2000 1999 0

/-- Second file-year attempt, entered with the state the first one left. -/
def findB2 : Handler × Int × Except LErr Result :=
  find findB1.1 fileY2001b ⟨2000, 11, 1⟩ false 2001 2000 findB1.2.1

/-- First file-year attempt of the lookup for (2001, 2, 5) in `envC`. -/
def findC1 : Handler × Int × Except LErr Result :=
  find emptyHandler fileY2001c ⟨2001, 2, 5⟩ false 2001 2000 0

/-- The handler after a standalone full scan of file-year 2002 of `envC`,
entered fresh (lunar month sentinel 0): it caches the record for the lunar
date (2001, 2, 5). -/
def handlerC2 : Handler :=
  (find emptyHandler fileY2002c ⟨2001, 2, 5⟩ false 2002 2001 0).1

/-- The failing scan of `fileBad2001` for the lunar date (2001, 1, 1). -/
def findE1 : Handler × Int × Except LErr Result :=
  find emptyHandler fileBad2001 ⟨2001, 1, 1⟩ false 2001 2000 0

/-- The solar-term query of `envT` for lunar year 2000, names = [冬至]. -/
def gstT : Handler × Except LErr (List Result) :=
  GetSolarTermsGo envT emptyHandler 2000 ["冬至"]

/-- An entry of a cache table is sound: its heap index is live and the record
it points to has a resolved (non-zero) lunar month. -/
def entryOK (h : Handler) (p : Date × Nat) : Prop :=
  p.2 < h.heap.length ∧ (h.heap.getD p.2 dummyResult).lunarDate.month ≠ 0

/-- Every entry of every file-year's tables is sound: no record with an
unresolved lunar month is reachable through the cache. -/
def CacheOK (h : Handler) : Prop :=
  ∀ fy c, alistGet fy h.cacheMap = some c →
    (∀ p ∈ c.dateCache, entryOK h p) ∧ (∀ p ∈ c.lunarDateCache, entryOK h p)

theorem alistGet_alistSet {α β : Type} [DecidableEq α] (kq k : α) (v : β) :
    ∀ l : List (α × β),
      alistGet kq (alistSet k v l) = if k = kq then some v else alistGet kq l
  | [] => by simp [alistGet, alistSet]
  | (a, b) :: rest => by
      by_cases hak : a = k
      · subst hak
        by_cases hkq : a = kq <;> simp [alistGet, alistSet, hkq]
      · simp only [alistSet, if_neg hak, alistGet]
        by_cases haq : a = kq
        · have hkkq : ¬ k = kq := fun w => hak (haq.trans w.symm)
          rw [if_pos haq, if_neg hkkq, if_pos haq]
        · rw [if_neg haq, if_neg haq, alistGet_alistSet kq k v rest]

theorem alistGet_alistSet_self {α β : Type} [DecidableEq α] (k : α) (v : β)
    (l : List (α × β)) : alistGet k (alistSet k v l) = some v := by
  simp [alistGet_alistSet]

theorem alistGet_alistSet_ne_none {α β : Type} [DecidableEq α] {kq : α}
    (k : α) (v : β) {l : List (α × β)} (h : alistGet kq l ≠ none) :
    alistGet kq (alistSet k v l) ≠ none := by
  rw [alistGet_alistSet]
  split
  · simp
  · exact h

theorem mem_alistSet {α β : Type} [DecidableEq α] (p : α × β) (k : α) (v : β) :
    ∀ l : List (α × β), p ∈ alistSet k v l → p = (k, v) ∨ p ∈ l
  | [] => by simp [alistSet]
  | (a, b) :: rest => by
      simp only [alistSet]
      split
      · intro hp
        rcases List.mem_cons.1 hp with h | h
        · exact Or.inl h
        · exact Or.inr (List.mem_cons_of_mem _ h)
      · intro hp
        rcases List.mem_cons.1 hp with h | h
        · exact Or.inr (h ▸ List.mem_cons_self _ _)
        · rcases mem_alistSet p k v rest h with h' | h'
          · exact Or.inl h'
          · exact Or.inr (List.mem_cons_of_mem _ h')

theorem getD_set_of_lt {γ : Type} (a d : γ) :
    ∀ (l : List γ) (i : Nat), i < l.length → (l.set i a).getD i d = a
  | [], i, h => by simp at h
  | x :: l, 0, _ => by simp
  | x :: l, i + 1, h => by
      simpa using getD_set_of_lt a d l i (by simpa using h)

theorem getD_set_ne {γ : Type} (a d : γ) :
    ∀ (l : List γ) (i j : Nat), i ≠ j → (l.set i a).getD j d = l.getD j d
  | [], i, j, _ => by simp
  | x :: l, 0, 0, h => absurd rfl h
  | x :: l, 0, j + 1, _ => by simp
  | x :: l, i + 1, 0, _ => by simp
  | x :: l, i + 1, j + 1, h => by
      simpa using getD_set_ne a d l i j (fun w => h (by simp [w]))

theorem set_of_length_le {γ : Type} (a : γ) :
    ∀ (l : List γ) (i : Nat), l.length ≤ i → l.set i a = l
  | [], _, _ => by simp
  | x :: l, 0, h => by simp at h
  | x :: l, i + 1, h => by
      simpa using set_of_length_le a l i (by simpa using h)

theorem getD_append_of_lt {γ : Type} (d : γ) :
    ∀ (l r : List γ) (i : Nat), i < l.length → (l ++ r).getD i d = l.getD i d
  | [], _, i, h => by simp at h
  | x :: l, r, 0, _ => by simp
  | x :: l, r, i + 1, h => by
      simpa using getD_append_of_lt d l r i (Nat.lt_of_succ_lt_succ h)

theorem getD_append_length {γ : Type} (d a : γ) :
    ∀ l : List γ, (l ++ [a]).getD l.length d = a
  | [] => by simp
  | x :: l => by
      show ((x :: (l ++ [a])).getD (l.length + 1) d) = a
      simp only [List.getD_cons_succ]
      exact getD_append_length d a l

/-- Rewriting a record's lunar month with its current value is the identity. -/
theorem setLunarMonth_eta (r : Result) (tmp : Int) (h : r.lunarDate.month = tmp) :
    setLunarMonth r tmp = r := by
  rcases r with ⟨dt, ⟨ly, lm, ld⟩, w, wr, st⟩
  simp only at h
  simp [setLunarMonth, h]

theorem setLunarMonth_month (r : Result) (tmp : Int) :
    (setLunarMonth r tmp).lunarDate.month = tmp := rfl

theorem setLunarMonth_date (r : Result) (tmp : Int) :
    (setLunarMonth r tmp).date = r.date := rfl

theorem cacheIns_heap (h : Handler) (fy : Int) (rid : Nat) :
    (h.cacheIns fy rid).heap = h.heap := rfl

/-- One step of the flush loop, named for rewriting. -/
theorem flushQueue_cons (h : Handler) (fy tmp : Int) (v : Nat) (rest : List Nat) :
    flushQueue h fy tmp (v :: rest) =
      flushQueue
        (Handler.cacheIns
          ⟨h.heap.set v (setLunarMonth (h.heap.getD v dummyResult) tmp), h.cacheMap⟩
          fy v)
        fy tmp rest := rfl

theorem flushQueue_heap_length (fy tmp : Int) :
    ∀ (q : List Nat) (h : Handler),
      (flushQueue h fy tmp q).heap.length = h.heap.length
  | [], _ => rfl
  | v :: rest, h => by
      rw [flushQueue_cons, flushQueue_heap_length fy tmp rest]
      simp [cacheIns_heap]

theorem flushQueue_getD_of_not_mem (fy tmp : Int) :
    ∀ (q : List Nat) (h : Handler) (i : Nat), i ∉ q →
      (flushQueue h fy tmp q).heap.getD i dummyResult =
        h.heap.getD i dummyResult
  | [], _, _, _ => rfl
  | v :: rest, h, i, hi => by
      rw [flushQueue_cons, flushQueue_getD_of_not_mem fy tmp rest _ i
        (fun w => hi (List.mem_cons_of_mem _ w))]
      show (h.heap.set v _).getD i dummyResult = _
      exact getD_set_ne _ _ _ _ _ (fun w => hi (w ▸ List.mem_cons_self _ _))

/-- A cell whose month is already `tmp` is not changed by a flush. -/
theorem flushQueue_getD_stable (fy tmp : Int) :
    ∀ (q : List Nat) (h : Handler) (i : Nat),
      (h.heap.getD i dummyResult).lunarDate.month = tmp →
      (flushQueue h fy tmp q).heap.getD i dummyResult =
        h.heap.getD i dummyResult
  | [], _, _, _ => rfl
  | v :: rest, h, i, hm => by
      rw [flushQueue_cons]
      by_cases hvi : v = i
      · subst hvi
        by_cases hlt : v < h.heap.length
        · have hset : (h.heap.set v
              (setLunarMonth (h.heap.getD v dummyResult) tmp)).getD v dummyResult
              = h.heap.getD v dummyResult := by
            rw [setLunarMonth_eta _ _ hm]
            exact getD_set_of_lt _ _ _ _ hlt
          rw [flushQueue_getD_stable fy tmp rest _ v
            (by rw [cacheIns_heap]; show ((h.heap.set v _).getD v _).lunarDate.month = tmp
                rw [hset]; exact hm)]
          exact hset
        · rw [set_of_length_le _ _ _ (Nat.le_of_not_lt hlt)]
          exact flushQueue_getD_stable fy tmp rest _ v hm
      · have hgd : ((h.heap.set v
            (setLunarMonth (h.heap.getD v dummyResult) tmp)).getD i dummyResult) =
            h.heap.getD i dummyResult := getD_set_ne _ _ _ _ _ hvi
        rw [flushQueue_getD_stable fy tmp rest _ i
          (by rw [cacheIns_heap]; show ((h.heap.set v _).getD i _).lunarDate.month = tmp
              rw [hgd]; exact hm)]
        exact hgd

/-- Every queued record leaves a flush with its lunar month set to `tmp`. -/
theorem flushQueue_month (fy tmp : Int) :
    ∀ (q : List Nat) (h : Handler) (i : Nat), i ∈ q → i < h.heap.length →
      ((flushQueue h fy tmp q).heap.getD i dummyResult).lunarDate.month = tmp
  | [], _, _, hi, _ => absurd hi (List.not_mem_nil _)
  | v :: rest, h, i, hi, hlt => by
      rw [flushQueue_cons]
      by_cases hvi : v = i
      · subst hvi
        have hset : (h.heap.set v
            (setLunarMonth (h.heap.getD v dummyResult) tmp)).getD v dummyResult
            = setLunarMonth (h.heap.getD v dummyResult) tmp :=
          getD_set_of_lt _ _ _ _ hlt
        rw [flushQueue_getD_stable fy tmp rest _ v
          (by rw [cacheIns_heap]; show ((h.heap.set v _).getD v _).lunarDate.month = tmp
              rw [hset]; exact setLunarMonth_month _ _)]
        rw [cacheIns_heap]
        show ((h.heap.set v _).getD v dummyResult).lunarDate.month = tmp
        rw [hset]
        exact setLunarMonth_month _ _
      · rcases List.mem_cons.1 hi with he | hmem
        · exact absurd he.symm hvi
        · refine flushQueue_month fy tmp rest _ i hmem ?_
          rw [cacheIns_heap]
          show i < (h.heap.set v _).length
          simpa using hlt

/-- A flush never changes the solar-date field of any heap cell. -/
theorem flushQueue_getD_date (fy tmp : Int) :
    ∀ (q : List Nat) (h : Handler) (i : Nat),
      ((flushQueue h fy tmp q).heap.getD i dummyResult).date =
        (h.heap.getD i dummyResult).date
  | [], _, _ => rfl
  | v :: rest, h, i => by
      rw [flushQueue_cons, flushQueue_getD_date fy tmp rest]
      rw [cacheIns_heap]
      show ((h.heap.set v _).getD i dummyResult).date = _
      by_cases hvi : v = i
      · subst hvi
        by_cases hlt : v < h.heap.length
        · rw [getD_set_of_lt _ _ _ _ hlt, setLunarMonth_date]
        · rw [set_of_length_le _ _ _ (Nat.le_of_not_lt hlt)]
      · rw [getD_set_ne _ _ _ _ _ hvi]

theorem cacheIns_get_self (h : Handler) (fy : Int) (rid : Nat) :
    alistGet fy (h.cacheIns fy rid).cacheMap = some
      { dateCache := alistSet (h.heap.getD rid dummyResult).date rid
          ((alistGet fy h.cacheMap).getD emptyFileCache).dateCache
        lunarDateCache := alistSet (h.heap.getD rid dummyResult).lunarDate rid
          ((alistGet fy h.cacheMap).getD emptyFileCache).lunarDateCache } := by
  simp [Handler.cacheIns, alistGet_alistSet]

/-- A flush only ever adds bindings to the file-year's cache tables. -/
theorem flushQueue_cache_mono (fy tmp : Int) :
    ∀ (q : List Nat) (h : Handler) (c : FileCache),
      alistGet fy h.cacheMap = some c →
      ∃ c', alistGet fy (flushQueue h fy tmp q).cacheMap = some c' ∧
        (∀ k, alistGet k c.dateCache ≠ none → alistGet k c'.dateCache ≠ none) ∧
        (∀ k, alistGet k c.lunarDateCache ≠ none →
          alistGet k c'.lunarDateCache ≠ none)
  | [], h, c, hc => ⟨c, hc, fun _ hk => hk, fun _ hk => hk⟩
  | v :: rest, h, c, hc => by
      rw [flushQueue_cons]
      set h1 : Handler :=
        ⟨h.heap.set v (setLunarMonth (h.heap.getD v dummyResult) tmp), h.cacheMap⟩
        with hh1
      have hc1 : alistGet fy h1.cacheMap = some c := hc
      have hc2 := cacheIns_get_self h1 fy v
      rw [hc1] at hc2
      obtain ⟨c', hc', hd, hl⟩ := flushQueue_cache_mono fy tmp rest _ _ hc2
      refine ⟨c', hc', fun k hk => hd k ?_, fun k hk => hl k ?_⟩
      · exact alistGet_alistSet_ne_none _ _ hk
      · exact alistGet_alistSet_ne_none _ _ hk

/-- After a flush, every queued record is present in both cache tables of the
file-year, keyed by its rewritten solar and lunar dates. -/
theorem flushQueue_keys (fy tmp : Int) :
    ∀ (q : List Nat) (h : Handler) (i : Nat), i ∈ q → i < h.heap.length →
      ∃ c', alistGet fy (flushQueue h fy tmp q).cacheMap = some c' ∧
        alistGet ((flushQueue h fy tmp q).heap.getD i dummyResult).date
          c'.dateCache ≠ none ∧
        alistGet ((flushQueue h fy tmp q).heap.getD i dummyResult).lunarDate
          c'.lunarDateCache ≠ none
  | [], _, _, hi, _ => absurd hi (List.not_mem_nil _)
  | v :: rest, h, i, hi, hlt => by
      rw [flushQueue_cons]
      by_cases hvi : v = i
      · subst hvi
        set upd := setLunarMonth (h.heap.getD v dummyResult) tmp with hupd
        set h1 : Handler := ⟨h.heap.set v upd, h.cacheMap⟩ with hh1
        have hg1 : h1.heap.getD v dummyResult = upd := getD_set_of_lt _ _ _ _ hlt
        have hc2 := cacheIns_get_self h1 fy v
        rw [hg1] at hc2
        have hg2 : (h1.cacheIns fy v).heap.getD v dummyResult = upd := hg1
        have hstable : (flushQueue (h1.cacheIns fy v) fy tmp rest).heap.getD v
            dummyResult = upd := by
          rw [flushQueue_getD_stable fy tmp rest _ v
            (by rw [hg2]; exact setLunarMonth_month _ _)]
          exact hg2
        obtain ⟨c', hc', hd, hl⟩ := flushQueue_cache_mono fy tmp rest _ _ hc2
        refine ⟨c', hc', ?_, ?_⟩
        · rw [hstable]
          refine hd _ ?_
          rw [alistGet_alistSet_self]
          simp
        · rw [hstable]
          refine hl _ ?_
          rw [alistGet_alistSet_self]
          simp
      · rcases List.mem_cons.1 hi with he | hmem
        · exact absurd he.symm hvi
        · refine flushQueue_keys fy tmp rest _ i hmem ?_
          rw [cacheIns_heap]
          show i < (h.heap.set v _).length
          simpa using hlt

theorem cacheOK_of_nil (hp : List Result) : CacheOK ⟨hp, []⟩ := by
  intro fy c hc
  simp [alistGet] at hc

theorem entryOK_set_month (h : Handler) (v : Nat) (tmp : Int) (htmp : tmp ≠ 0)
    (p : Date × Nat) (hp : entryOK h p) :
    entryOK ⟨h.heap.set v (setLunarMonth (h.heap.getD v dummyResult) tmp),
      h.cacheMap⟩ p := by
  obtain ⟨hlen, hm⟩ := hp
  refine ⟨by simpa using hlen, ?_⟩
  show (((h.heap.set v _).getD p.2 dummyResult)).lunarDate.month ≠ 0
  by_cases hvp : p.2 = v
  · rw [hvp]
    by_cases hlt : v < h.heap.length
    · rw [getD_set_of_lt _ _ _ _ hlt, setLunarMonth_month]
      exact htmp
    · rw [set_of_length_le _ _ _ (Nat.le_of_not_lt hlt)]
      rw [hvp] at hm
      exact hm
  · rw [getD_set_ne _ _ _ _ _ (fun w => hvp w.symm)]
    exact hm

theorem cacheOK_set_month (h : Handler) (v : Nat) (tmp : Int) (htmp : tmp ≠ 0)
    (hC : CacheOK h) :
    CacheOK ⟨h.heap.set v (setLunarMonth (h.heap.getD v dummyResult) tmp),
      h.cacheMap⟩ := by
  intro fy c hc
  obtain ⟨hd, hl⟩ := hC fy c hc
  exact ⟨fun p hp => entryOK_set_month h v tmp htmp p (hd p hp),
    fun p hp => entryOK_set_month h v tmp htmp p (hl p hp)⟩

theorem entryOK_append (h : Handler) (r : Result) (p : Date × Nat)
    (hp : entryOK h p) : entryOK ⟨h.heap ++ [r], h.cacheMap⟩ p := by
  obtain ⟨hlen, hm⟩ := hp
  refine ⟨by simp; omega, ?_⟩
  show (((h.heap ++ [r]).getD p.2 dummyResult)).lunarDate.month ≠ 0
  rw [getD_append_of_lt _ _ _ _ hlen]
  exact hm

theorem cacheOK_append (h : Handler) (r : Result) (hC : CacheOK h) :
    CacheOK ⟨h.heap ++ [r], h.cacheMap⟩ := by
  intro fy c hc
  obtain ⟨hd, hl⟩ := hC fy c hc
  exact ⟨fun p hp => entryOK_append h r p (hd p hp),
    fun p hp => entryOK_append h r p (hl p hp)⟩

theorem cacheOK_cacheIns (h : Handler) (fy : Int) (rid : Nat)
    (hC : CacheOK h) (hrid : rid < h.heap.length)
    (hm : (h.heap.getD rid dummyResult).lunarDate.month ≠ 0) :
    CacheOK (h.cacheIns fy rid) := by
  intro fy' c' hc'
  have hheap : (h.cacheIns fy rid).heap = h.heap := rfl
  have hmap : (h.cacheIns fy rid).cacheMap = alistSet fy
      { dateCache := alistSet (h.heap.getD rid dummyResult).date rid
          ((alistGet fy h.cacheMap).getD emptyFileCache).dateCache
        lunarDateCache := alistSet (h.heap.getD rid dummyResult).lunarDate rid
          ((alistGet fy h.cacheMap).getD emptyFileCache).lunarDateCache }
      h.cacheMap := rfl
  rw [hmap, alistGet_alistSet] at hc'
  have hold : ∀ p, p ∈ ((alistGet fy h.cacheMap).getD emptyFileCache).dateCache →
      entryOK h p := by
    intro p hp
    rcases hcf : alistGet fy h.cacheMap with _ | c0
    · rw [hcf] at hp
      simp [emptyFileCache] at hp
    · rw [hcf] at hp
      exact (hC fy c0 hcf).1 p hp
  have holdl : ∀ p,
      p ∈ ((alistGet fy h.cacheMap).getD emptyFileCache).lunarDateCache →
      entryOK h p := by
    intro p hp
    rcases hcf : alistGet fy h.cacheMap with _ | c0
    · rw [hcf] at hp
      simp [emptyFileCache] at hp
    · rw [hcf] at hp
      exact (hC fy c0 hcf).2 p hp
  have hent : ∀ p, entryOK h p → entryOK (h.cacheIns fy rid) p := by
    intro p hp
    exact hp
  split at hc'
  · cases hc'
    constructor
    · intro p hp
      rcases mem_alistSet p _ _ _ hp with he | hmem
      · subst he
        exact ⟨hrid, hm⟩
      · exact hent p (hold p hmem)
    · intro p hp
      rcases mem_alistSet p _ _ _ hp with he | hmem
      · subst he
        exact ⟨hrid, hm⟩
      · exact hent p (holdl p hmem)
  · obtain ⟨hd, hl⟩ := hC fy' c' hc'
    exact ⟨fun p hp => hent p (hd p hp), fun p hp => hent p (hl p hp)⟩

theorem cacheOK_flushQueue (fy tmp : Int) (htmp : tmp ≠ 0) :
    ∀ (q : List Nat) (h : Handler), CacheOK h →
      (∀ id ∈ q, id < h.heap.length) → CacheOK (flushQueue h fy tmp q)
  | [], h, hC, _ => hC
  | v :: rest, h, hC, hq => by
      rw [flushQueue_cons]
      have hv : v < h.heap.length := hq v (List.mem_cons_self _ _)
      set h1 : Handler :=
        ⟨h.heap.set v (setLunarMonth (h.heap.getD v dummyResult) tmp),
          h.cacheMap⟩ with hh1
      have hC1 : CacheOK h1 := cacheOK_set_month h v tmp htmp hC
      have hg1 : h1.heap.getD v dummyResult =
          setLunarMonth (h.heap.getD v dummyResult) tmp :=
        getD_set_of_lt _ _ _ _ hv
      have hC2 : CacheOK (h1.cacheIns fy v) := by
        refine cacheOK_cacheIns h1 fy v hC1 (by simpa using hv) ?_
        rw [hg1, setLunarMonth_month]
        exact htmp
      refine cacheOK_flushQueue fy tmp htmp rest _ hC2 ?_
      intro id hid
      have : id < h.heap.length := hq id (List.mem_cons_of_mem _ hid)
      simpa [cacheIns_heap] using this

/-- The flushed month value is never the unresolved sentinel 0. -/
theorem tmp_ne_zero (m : Int) : (if m - 1 = 0 then (12 : Int) else m - 1) ≠ 0 := by
  split <;> omega

/-- Invariant transport through the post-flush tail of `parseLine`: a format
error returns the handler unchanged, and a successful parse preserves cache
soundness, keeps all returned queue indices and the new record's index live,
grows the heap, and never changes the solar date of a pre-existing cell. -/
theorem parseLineCore_inv (h1 : Handler) (dt? : Option Date)
    (rest : List String) (fy ly lm ld : Int) (flushed : Bool) (q : List Nat)
    (hC : CacheOK h1) (hq : ∀ id ∈ q, id < h1.heap.length) :
    (∀ h', parseLineCore h1 dt? rest fy ly lm ld flushed q = .fmtError h' →
      h' = h1) ∧
    (∀ h' rid q', parseLineCore h1 dt? rest fy ly lm ld flushed q =
        .ok h' rid q' →
      CacheOK h' ∧ (∀ id ∈ q', id < h'.heap.length) ∧ rid < h'.heap.length ∧
      h1.heap.length ≤ h'.heap.length ∧
      ∀ i, i < h1.heap.length →
        (h'.heap.getD i dummyResult).date = (h1.heap.getD i dummyResult).date) := by
  rcases dt? with _ | dt
  · constructor
    · intro h' he
      simp only [parseLineCore, ParseOut.fmtError.injEq] at he
      exact he.symm
    · intro h' rid q' he
      simp only [parseLineCore] at he
      cases he
  · rcases rest with _ | ⟨f2, rest2⟩
    · constructor
      · intro h' he
        simp only [parseLineCore] at he
        cases he
      · intro h' rid q' he
        simp only [parseLineCore] at he
        cases he
    · by_cases hlm : lm = 0
      · constructor
        · intro h' he
          simp only [parseLineCore, hlm, eq_self_iff_true, if_true] at he
          cases he
        · intro h' rid q' he
          simp only [parseLineCore, hlm, eq_self_iff_true, if_true, ParseOut.ok.injEq] at he
          obtain ⟨hh, hr, hq'⟩ := he
          subst hh hr hq'
          refine ⟨cacheOK_append h1 _ hC, ?_, by simp, by simp, ?_⟩
          · intro id hid
            rcases List.mem_append.1 hid with hid | hid
            · have := hq id hid
              simp only [List.length_append, List.length_cons, List.length_nil]
              omega
            · simp only [List.mem_singleton] at hid
              subst hid
              simp
          · intro i hi
            show ((h1.heap ++ [_]).getD i dummyResult).date = _
            rw [getD_append_of_lt _ _ _ _ hi]
      · constructor
        · intro h' he
          simp only [parseLineCore, hlm, if_false] at he
          cases he
        · intro h' rid q' he
          simp only [parseLineCore, hlm, if_false, ParseOut.ok.injEq] at he
          obtain ⟨hh, hr, hq'⟩ := he
          subst hh hr hq'
          refine ⟨?_, ?_, ?_, ?_, ?_⟩
          · refine cacheOK_cacheIns _ fy _ (cacheOK_append h1 _ hC) (by simp) ?_
            show (((h1.heap ++ [_]).getD h1.heap.length dummyResult)).lunarDate.month ≠ (0 : Int)
            rw [getD_append_length]
            exact hlm
          · intro id hid
            rw [cacheIns_heap]
            split at hid
            · cases hid
            · have := hq id hid
              simp only [List.length_append, List.length_cons, List.length_nil]
              omega
          · rw [cacheIns_heap]
            simp
          · rw [cacheIns_heap]
            simp
          · intro i hi
            rw [cacheIns_heap]
            show ((h1.heap ++ [_]).getD i dummyResult).date = _
            rw [getD_append_of_lt _ _ _ _ hi]

/-- `parseLineCore_inv` restated relative to the pre-flush handler. -/
theorem parseLineCore_inv' (h h1x : Handler) (dt? : Option Date)
    (rest : List String) (fy ly lm ld : Int) (flushed : Bool) (q : List Nat)
    (hC1 : CacheOK h1x) (hlen : h1x.heap.length = h.heap.length)
    (hdate : ∀ i, (h1x.heap.getD i dummyResult).date =
      (h.heap.getD i dummyResult).date)
    (hq1 : ∀ id ∈ q, id < h1x.heap.length) :
    (∀ h', parseLineCore h1x dt? rest fy ly lm ld flushed q = .fmtError h' →
      CacheOK h') ∧
    (∀ h' rid q', parseLineCore h1x dt? rest fy ly lm ld flushed q =
        .ok h' rid q' →
      CacheOK h' ∧ (∀ id ∈ q', id < h'.heap.length) ∧ rid < h'.heap.length ∧
      h.heap.length ≤ h'.heap.length ∧
      ∀ i, i < h.heap.length →
        (h'.heap.getD i dummyResult).date = (h.heap.getD i dummyResult).date) := by
  obtain ⟨hfmt, hok⟩ := parseLineCore_inv h1x dt? rest fy ly lm ld flushed q hC1 hq1
  constructor
  · intro h' he
    rw [hfmt h' he]
    exact hC1
  · intro h' rid q' he
    obtain ⟨hC', hq', hrid, hmono, hdates⟩ := hok h' rid q' he
    refine ⟨hC', hq', hrid, by omega, ?_⟩
    intro i hi
    rw [hdates i (by omega), hdate i]

theorem parseLineRest_inv (h : Handler) (f0 : String) (rest : List String)
    (fy ly lm ld : Int) (im : Bool) (q : List Nat)
    (hC : CacheOK h) (hq : ∀ id ∈ q, id < h.heap.length) :
    (∀ h', parseLineRest h f0 rest fy ly lm ld im q = .fmtError h' →
      CacheOK h') ∧
    (∀ h' rid q', parseLineRest h f0 rest fy ly lm ld im q = .ok h' rid q' →
      CacheOK h' ∧ (∀ id ∈ q', id < h'.heap.length) ∧ rid < h'.heap.length ∧
      h.heap.length ≤ h'.heap.length ∧
      ∀ i, i < h.heap.length →
        (h'.heap.getD i dummyResult).date = (h.heap.getD i dummyResult).date) := by
  unfold parseLineRest
  refine parseLineCore_inv' h _ _ _ _ _ _ _ _ _ ?_ ?_ ?_ ?_
  · split
    · exact cacheOK_flushQueue fy _ (tmp_ne_zero lm) q h hC hq
    · exact hC
  · split
    · exact flushQueue_heap_length fy _ q h
    · rfl
  · intro i
    split
    · exact flushQueue_getD_date fy _ q h i
    · rfl
  · intro id hid
    split
    · rw [flushQueue_heap_length]
      exact hq id hid
    · exact hq id hid

theorem parseLine_inv (h : Handler) (line : String) (fy ly lm : Int)
    (q : List Nat) (hC : CacheOK h) (hq : ∀ id ∈ q, id < h.heap.length) :
    (∀ h', parseLine h line fy ly lm q = .fmtError h' → CacheOK h') ∧
    (∀ h' rid q', parseLine h line fy ly lm q = .ok h' rid q' →
      CacheOK h' ∧ (∀ id ∈ q', id < h'.heap.length) ∧ rid < h'.heap.length ∧
      h.heap.length ≤ h'.heap.length ∧
      ∀ i, i < h.heap.length →
        (h'.heap.getD i dummyResult).date = (h.heap.getD i dummyResult).date) := by
  rcases hfs : goFields line with _ | ⟨f0, _ | ⟨f1, rest⟩⟩
  · constructor
    · intro h' he
      simp only [parseLine, hfs] at he
      exact ParseOut.noConfusion he
    · intro h' rid q' he
      simp only [parseLine, hfs] at he
      exact ParseOut.noConfusion he
  · constructor
    · intro h' he
      simp only [parseLine, hfs] at he
      exact ParseOut.noConfusion he
    · intro h' rid q' he
      simp only [parseLine, hfs] at he
      exact ParseOut.noConfusion he
  · rcases hdec : decodeNumeral f1.data with _ | dec
    · constructor
      · intro h' he
        simp only [parseLine, hfs, hdec] at he
        exact ParseOut.noConfusion he
      · intro h' rid q' he
        simp only [parseLine, hfs, hdec] at he
        exact ParseOut.noConfusion he
    · obtain ⟨hfmt, hok⟩ := parseLineRest_inv h f0 rest fy
        (if dec.yearInc then ly + 1 else ly)
        (if dec.isMonth then dec.value else lm)
        (if dec.isMonth then 1 else dec.value)
        dec.isMonth q hC hq
      constructor
      · intro h' he
        simp only [parseLine, hfs, hdec] at he
        exact hfmt h' he
      · intro h' rid q' he
        simp only [parseLine, hfs, hdec] at he
        exact hok h' rid q' he

/-- The scan-loop invariant: cache soundness is preserved, and a successful
scan yields a record with a fully non-zero lunar date which, in the
solar→lunar direction, has exactly the queried solar date. -/
theorem findAux_inv (d : Date) (dtl : Bool) (fy : Int) :
    ∀ (lines : List String) (h : Handler) (ly lm : Int) (q : List Nat)
      (ri : Option Nat),
      CacheOK h → (∀ id ∈ q, id < h.heap.length) →
      (dtl = true → ∀ i, ri = some i → i < h.heap.length ∧
        (h.heap.getD i dummyResult).date = d) →
      CacheOK (findAux d dtl fy h lines ly lm q ri).1 ∧
      (∀ i, (findAux d dtl fy h lines ly lm q ri).2.2 = .ok i →
        ((findAux d dtl fy h lines ly lm q ri).1.heap.getD i
          dummyResult).lunarDate.Valid = true ∧
        (dtl = true →
          ((findAux d dtl fy h lines ly lm q ri).1.heap.getD i
            dummyResult).date = d))
  | [], h, ly, lm, q, ri, hC, hq, hri => by
      rcases hri' : ri with _ | j
      · subst hri'
        simp only [findAux]
        exact ⟨hC, fun i hi => Except.noConfusion hi⟩
      · subst hri'
        simp only [findAux]
        split
        · refine ⟨hC, fun i hi => ?_⟩
          cases hi
          exact ⟨by assumption, fun hdtl => (hri hdtl j rfl).2⟩
        · exact ⟨hC, fun i hi => Except.noConfusion hi⟩
  | line :: rest, h, ly, lm, q, ri, hC, hq, hri => by
      rcases hpl : parseLine h line fy ly lm q with _ | _ | h' | ⟨h', rid, q'⟩
      · simp only [findAux, hpl]
        exact findAux_inv d dtl fy rest h ly lm q ri hC hq hri
      · simp only [findAux, hpl]
        exact ⟨hC, fun i hi => Except.noConfusion hi⟩
      · simp only [findAux, hpl]
        exact ⟨(parseLine_inv h line fy ly lm q hC hq).1 h' hpl,
          fun i hi => Except.noConfusion hi⟩
      · obtain ⟨hC', hq', hrid, hmono, hdates⟩ :=
          (parseLine_inv h line fy ly lm q hC hq).2 h' rid q' hpl
        simp only [findAux, hpl]
        refine findAux_inv d dtl fy rest h' _ _ q' _ hC' hq' ?_
        intro hdtl i hi
        subst hdtl
        simp only [if_true] at hi
        split at hi
        · cases hi
          exact ⟨hrid, by assumption⟩
        · obtain ⟨hlt, hdt⟩ := hri rfl i hi
          exact ⟨by omega, by rw [hdates i hlt]; exact hdt⟩

/-- C7: the numeral decoder maps 廿三 ↦ 23, 初一 ↦ 1, 十 ↦ 10, 三十 ↦ 30
(the non-zero tens digit is decremented when the units character is the
solitary 十), and 正 ↦ 1 with the lunar-year-increment signal; a trailing
month terminator 月 is stripped before decoding and marks the value as a
month number, for each of these inputs. -/
theorem C7_numeral_decoder :
    decodeNumeral "廿三".data = some ⟨23, false, false⟩ ∧
    decodeNumeral "初一".data = some ⟨1, false, false⟩ ∧
    decodeNumeral "十".data = some ⟨10, false, false⟩ ∧
    decodeNumeral "三十".data = some ⟨30, false, false⟩ ∧
    decodeNumeral "正".data = some ⟨1, false, true⟩ ∧
    decodeNumeral "廿三月".data = some ⟨23, true, false⟩ ∧
    decodeNumeral "初一月".data = some ⟨1, true, false⟩ ∧
    decodeNumeral "十月".data = some ⟨10, true, false⟩ ∧
    decodeNumeral "三十月".data = some ⟨30, true, false⟩ ∧
    decodeNumeral "正月".data = some ⟨1, true, true⟩ := by
  decide

/-- C10 counterexample: the claim asserts that every line with exactly two
whitespace-separated tokens makes the parser perform an out-of-bounds index
access; but on a two-token line whose first token fails to parse as a date
the parser returns a format error instead (the date parse at lunar.go line
322 fails before `fields[2]` is touched at line 327). -/
theorem C10_counterexample :
    (goFields "x 初一\n").length = 2 ∧
    parseLine emptyHandler "x 初一\n" 2001 2000 0 [] = .fmtError emptyHandler ∧
    parseLine emptyHandler "x 初一\n" 2001 2000 0 [] ≠ .oob := by
  decide

/-- C10 (amended): `parseLine` performs an out-of-bounds index access exactly
when the line has exactly one token, or its second token consists solely of
the leap marker 閏 and/or the terminator 月 (empty after stripping, i.e. the
decoder panics), or it has exactly two tokens whose second token survives
stripping and whose first token parses as a date; a two-token line whose
first token fails to parse as a date returns a format error instead, and
lines with zero tokens or at least three tokens and a decodable second token
never go out of bounds. -/
theorem C10_parser_totality (h : Handler) (line : String) (fy ly lm : Int)
    (q : List Nat) :
    parseLine h line fy ly lm q = .oob ↔
      ((goFields line).length = 1 ∨
       (2 ≤ (goFields line).length ∧
         decodeNumeral ((goFields line).getD 1 "").data = none) ∨
       ((goFields line).length = 2 ∧
         decodeNumeral ((goFields line).getD 1 "").data ≠ none ∧
         (goParseDate (paddedFormat fy) ((goFields line).getD 0 "")).isSome)) := by
  rcases hfs : goFields line with _ | ⟨f0, _ | ⟨f1, rest⟩⟩
  · simp [parseLine, hfs]
  · simp [parseLine, hfs]
  · rcases hdec : decodeNumeral f1.data with _ | dec
    · simp [parseLine, hfs, hdec]
    · rcases hpd : goParseDate (paddedFormat fy) f0 with _ | dt
      · rcases rest with _ | ⟨f2, rest2⟩ <;>
          simp [parseLine, parseLineRest, parseLineCore, hfs, hdec, hpd]
      · rcases rest with _ | ⟨f2, rest2⟩
        · simp [parseLine, parseLineRest, parseLineCore, hfs, hdec, hpd]
        · simp only [parseLine, hfs, hdec, parseLineRest, parseLineCore, hpd]
          constructor
          · intro hoob
            exfalso
            by_cases hv : (if dec.isMonth = true then dec.value else lm) = 0
            · rw [if_pos hv] at hoob
              exact ParseOut.noConfusion hoob
            · rw [if_neg hv] at hoob
              exact ParseOut.noConfusion hoob
          · intro hor
            simp only [List.getD_cons_succ, List.getD_cons_zero, hdec,
              List.length_cons] at hor
            rcases hor with h1 | ⟨_, h2⟩ | ⟨h3, _⟩
            · omega
            · exact Option.noConfusion h2
            · omega

/-- C8 counterexample: a lunar query whose month field is the zero sentinel
matches a record while that record's lunar month is still unresolved (a zero
field); the claim requires NotFound, but the scan returns the record — whose
lunar date has meanwhile been rewritten by the flush to (2000, 2, 5), a date
different from the queried (2000, 0, 5). -/
theorem C8_counterexample :
    (find emptyHandler fileDeferredA ⟨2000, 0, 5⟩ false 2001 2000 0).2.2 =
      .ok ⟨⟨2001, 1, 5⟩, ⟨2000, 2, 5⟩, 1, "一", ""⟩ ∧
    (⟨⟨2001, 1, 5⟩, ⟨2000, 2, 5⟩, 1, "一", ""⟩ : Result).lunarDate ≠
      (⟨2000, 0, 5⟩ : Date) := by
  decide

/-- C8 (amended): a scan preserves cache soundness — no record reachable
through any file-year's tables has the unresolved lunar-month sentinel 0, so
records still unresolved at end-of-scan never reach the cache — and a record
returned by `find` always has a fully non-zero lunar date; in the solar→lunar
direction its solar date equals the queried date.  (A lunar-direction match
need not equal the queried lunar date: a record matched while unresolved, or
a deferred match resolved by a flush, can return a different record, as the
counterexample shows.) -/
theorem C8_query_soundness (h : Handler) (lines : List String) (d : Date)
    (dtl : Bool) (fy ly lm : Int) (hC : CacheOK h) :
    CacheOK (find h lines d dtl fy ly lm).1 ∧
    ∀ r, (find h lines d dtl fy ly lm).2.2 = .ok r →
      r.lunarDate.Valid = true ∧ (dtl = true → r.date = d) := by
  rcases hpr : prepareReader lines with _ | rest
  · simp only [find, hpr]
    exact ⟨hC, fun r hr => Except.noConfusion hr⟩
  · obtain ⟨hC', hok⟩ := findAux_inv d dtl fy rest h ly lm [] none hC
      (fun id hid => absurd hid (List.not_mem_nil _))
      (fun _ i hi => Option.noConfusion hi)
    rcases hfa : findAux d dtl fy h rest ly lm [] none with ⟨h', lm', out⟩
    rw [hfa] at hC' hok
    rcases out with e | i
    · simp only [find, hpr, hfa]
      exact ⟨hC', fun r hr => Except.noConfusion hr⟩
    · simp only [find, hpr, hfa]
      refine ⟨hC', fun r hr => ?_⟩
      cases hr
      exact hok i rfl

/-- C8 witness: the amended theorem applied to a full scan of `fileMarkerA`
from the empty handler in the solar→lunar direction. -/
theorem C8_witness :
    recA.lunarDate.Valid = true ∧
    (true = true → recA.date = (⟨2001, 1, 1⟩ : Date)) :=
  (C8_query_soundness emptyHandler fileMarkerA ⟨2001, 1, 1⟩ true 2001 2000 0
    (cacheOK_of_nil [])).2 recA (by decide)

/-- C1 counterexample: `recA` is the sole record a full scan of file-year
2001 produces (so the file has no duplicate lunar dates), yet
`LunarDateToDate` on its lunar date (2000, 2, 1) fails with an IO error —
the engine first consults file-year 2000, which the `FileSource` cannot
supply — instead of returning a result with `recA`'s solar date. -/
theorem C1_counterexample :
    (find emptyHandler fileMarkerA ⟨2001, 1, 1⟩ true 2001 2000 0).2.2 =
      .ok recA ∧
    alistGet recA.lunarDate
      (((alistGet 2001 handlerA.cacheMap).getD emptyFileCache).lunarDateCache) =
      some 0 ∧
    handlerA.heap.getD 0 dummyResult = recA ∧
    (LunarDateToDate envA handlerA recA.lunarDate).2.2 = .error .ioErr := by
  decide

/-- C1 (amended): for a record retrievable through both tables of a scanned
file-year's cache (which, absent duplicate lunar and duplicate solar dates,
is every record a full scan produced), with solar year equal to the
file-year, and whose lunar year either equals the file-year or precedes it
with the preceding file-year also cached and lacking the lunar key:
`DateToLunarDate` of its solar date returns the record, and
`LunarDateToDate` of its lunar date returns the record (in particular a
result with the record's solar date), both without touching the
`FileSource`. -/
theorem C1_round_trip (env : Env) (h : Handler) (fy : Int) (r : Result)
    (c : FileCache) (i j : Nat)
    (hc : alistGet fy h.cacheMap = some c)
    (hi : alistGet r.date c.dateCache = some i)
    (hir : h.heap.getD i dummyResult = r)
    (hj : alistGet r.lunarDate c.lunarDateCache = some j)
    (hjr : h.heap.getD j dummyResult = r)
    (hyear : r.date.year = fy)
    (hly : r.lunarDate.year = fy ∨
      (r.lunarDate.year + 1 = fy ∧ ∃ c',
        alistGet r.lunarDate.year h.cacheMap = some c' ∧
        alistGet r.lunarDate c'.lunarDateCache = none)) :
    DateToLunarDate env h r.date = (h, [], .ok r) ∧
    LunarDateToDate env h r.lunarDate = (h, [], .ok r) := by
  constructor
  · have hq : h.queryCache r.date.year r.date true = (true, some r) := by
      unfold Handler.queryCache
      rw [hyear, hc]
      simp [hi]
      simpa using hir
    unfold DateToLunarDate
    rw [hq]
  · rcases hly with hly1 | ⟨hly2, c', hc', hnone⟩
    · have hq : h.queryCache r.lunarDate.year r.lunarDate false =
          (true, some r) := by
        unfold Handler.queryCache
        rw [hly1, hc]
        simp [hj]
        simpa using hjr
      unfold LunarDateToDate
      rw [hq]
    · have hq1 : h.queryCache r.lunarDate.year r.lunarDate false =
          (true, none) := by
        unfold Handler.queryCache
        rw [hc']
        simp [hnone]
      have hq2 : h.queryCache (r.lunarDate.year + 1) r.lunarDate false =
          (true, some r) := by
        unfold Handler.queryCache
        rw [hly2, hc]
        simp [hj]
        simpa using hjr
      unfold LunarDateToDate
      rw [hq1]
      unfold LunarDateToDatePhase2
      rw [hq2]

/-- C1 witness: the amended round trip on the cache produced by a full scan
of `fileZhengA` (whose single record has lunar year equal to the
file-year). -/
theorem C1_witness :
    DateToLunarDate envZ handlerZ recZ.date = (handlerZ, [], .ok recZ) ∧
    LunarDateToDate envZ handlerZ recZ.lunarDate = (handlerZ, [], .ok recZ) :=
  C1_round_trip envZ handlerZ 2001 recZ cacheZ 0 0 (by decide) (by decide)
    (by decide) (by decide) (by decide) (by decide) (Or.inl (by decide))

/-- C3 counterexample: the lunar date (2001, 2, 5), whose matching record
lies in file-year 2002 — a fresh full scan of `fileY2002c` caches it there
under its solar date (2002, 1, 1) — is NOT found by `LunarDateToDate`
queried with `lunar.year = 2001` although both files are available: the
lunar month the first scan leaves behind (5) makes the second scan cache
file 2002's pre-marker day line under month 5 instead of deferring it, so
the lookup answers NotFound, refuting the claim's "finds the record". -/
theorem C3_counterexample :
    alistGet (⟨2001, 2, 5⟩ : Date)
      (((alistGet 2002 handlerC2.cacheMap).getD emptyFileCache).lunarDateCache)
      = some 0 ∧
    handlerC2.heap.getD 0 dummyResult =
      ⟨⟨2002, 1, 1⟩, ⟨2001, 2, 5⟩, 1, "一", ""⟩ ∧
    envC 2001 ≠ none ∧
    envC 2002 ≠ none ∧
    (LunarDateToDate envC emptyHandler ⟨2001, 2, 5⟩).2.2 =
      .error .notFound := by
  decide

/-- C3 (amended): `LunarDateToDate` on an unloaded file-year scans file
`lunar.year` first; a match there is returned at once (with a single
`FileSource` read), and on NotFound it scans file `lunar.year + 1` — with
the lunar-month state carried out of the first scan — and returns that
second scan's outcome verbatim.  A lunar date whose record lies in
file-year Y+1 is therefore found exactly when that carried-state second
scan finds it (not always, as the counterexample shows), and NotFound is
returned only when both scans complete without a match. -/
theorem C3_cross_year (env : Env) (h h1 h2 : Handler) (d : Date)
    (f f1 : List String) (lm1 lm2 : Int)
    (hnl : alistGet d.year h.cacheMap = none)
    (henv : env d.year = some f) :
    (∀ r, find h f d false d.year (d.year - 1) 0 = (h1, lm1, .ok r) →
      LunarDateToDate env h d = (h1, [d.year], .ok r)) ∧
    (∀ out2,
      find h f d false d.year (d.year - 1) 0 = (h1, lm1, .error .notFound) →
      alistGet (d.year + 1) h1.cacheMap = none →
      env (d.year + 1) = some f1 →
      find h1 f1 d false (d.year + 1) d.year lm1 = (h2, lm2, out2) →
      LunarDateToDate env h d = (h2, [d.year, d.year + 1], out2)) := by
  constructor
  · intro r hfind
    simp only [LunarDateToDate, Handler.queryCache, hnl, henv, hfind]
  · intro out2 hfind hnl2 henv2 hfind2
    simp only [LunarDateToDate, LunarDateToDatePhase2, Handler.queryCache,
      hnl, henv, hfind, hnl2, henv2, hfind2, eq_self_iff_true, if_true,
      List.cons_append, List.nil_append]

/-- C3 witness: the lunar date (2000, 11, 1), whose record lies in file-year
2001, queried with `lunar.year = 2000` against `envB`: the engine reads file
2000, fails, then reads file 2001 and returns that scan's result. -/
theorem C3_witness :
    LunarDateToDate envB emptyHandler ⟨2000, 11, 1⟩ =
      (findB2.1, [2000, 2001], findB2.2.2) :=
  (C3_cross_year envB emptyHandler findB1.1 findB2.1 ⟨2000, 11, 1⟩ fileY2000
    fileY2001b findB1.2.1 findB2.2.1 (by decide) (by decide)).2 findB2.2.2
    (by decide) (by decide) (by decide) (by decide)

/-- C4 counterexample: file-year 2001 has been scanned (its cache is
loaded), yet a subsequent `DateToLunarDate` lookup for a date absent from
the table triggers another `FileSource` read of the same file-year, so a
scanned file-year is not read at most once per instance lifetime. -/
theorem C4_counterexample :
    alistGet 2001 handlerA.cacheMap ≠ none ∧
    (DateToLunarDate envA handlerA ⟨2001, 2, 2⟩).2.1 = [2001] := by
  decide

/-- C4 (amended): once a file-year (and, for the lunar direction, its
successor) is cached, `LunarDateToDate` performs no `FileSource` read, and a
`DateToLunarDate` lookup whose date is present in the loaded solar table is
served from memory; but a `DateToLunarDate` lookup for a date absent from a
loaded file-year's table re-reads and re-scans that file-year. -/
theorem C4_cache_reuse (env : Env) (h : Handler) (d : Date) (c : FileCache)
    (hc : alistGet d.year h.cacheMap = some c) :
    (∀ c', alistGet (d.year + 1) h.cacheMap = some c' →
      (LunarDateToDate env h d).2.1 = []) ∧
    (∀ i, alistGet d c.dateCache = some i →
      DateToLunarDate env h d = (h, [], .ok (h.heap.getD i dummyResult))) ∧
    (alistGet d c.dateCache = none →
      (DateToLunarDate env h d).2.1 = [d.year]) := by
  refine ⟨?_, ?_, ?_⟩
  · intro c' hc'
    rcases hl : alistGet d c.lunarDateCache with _ | k
    · have hq1 : h.queryCache d.year d false = (true, none) := by
        unfold Handler.queryCache
        rw [hc]
        simp [hl]
      rcases hl2 : alistGet d c'.lunarDateCache with _ | k2
      · have hq2 : h.queryCache (d.year + 1) d false = (true, none) := by
          unfold Handler.queryCache
          rw [hc']
          simp [hl2]
        unfold LunarDateToDate
        rw [hq1]
        unfold LunarDateToDatePhase2
        rw [hq2]
      · have hq2 : h.queryCache (d.year + 1) d false =
            (true, some (h.heap.getD k2 dummyResult)) := by
          unfold Handler.queryCache
          rw [hc']
          simp [hl2]
        unfold LunarDateToDate
        rw [hq1]
        unfold LunarDateToDatePhase2
        rw [hq2]
    · have hq1 : h.queryCache d.year d false =
          (true, some (h.heap.getD k dummyResult)) := by
        unfold Handler.queryCache
        rw [hc]
        simp [hl]
      unfold LunarDateToDate
      rw [hq1]
  · intro i hi
    have hq : h.queryCache d.year d true =
        (true, some (h.heap.getD i dummyResult)) := by
      unfold Handler.queryCache
      rw [hc]
      simp [hi]
    unfold DateToLunarDate
    rw [hq]
  · intro hnone
    have hq : h.queryCache d.year d true = (true, none) := by
      unfold Handler.queryCache
      rw [hc]
      simp [hnone]
    unfold DateToLunarDate
    rw [hq]
    rcases henv : env d.year with _ | f
    · rfl
    · show (match find h f d true d.year (d.year - 1) 0 with
          | (h', _, out) => (h', [d.year], out)).2.1 = [d.year]
      rcases hf : find h f d true d.year (d.year - 1) 0 with ⟨h', lm', out⟩
      rfl

/-- C4 witness: the amended theorem's cache-hit conjunct on the scanned
file-year 2001 of `envA`: the lookup is served from memory with no read. -/
theorem C4_witness :
    DateToLunarDate envA handlerA ⟨2001, 1, 1⟩ =
      (handlerA, [], .ok (handlerA.heap.getD 0 dummyResult)) :=
  (C4_cache_reuse envA handlerA ⟨2001, 1, 1⟩
    ((alistGet 2001 handlerA.cacheMap).getD emptyFileCache)
    (by decide)).2.1 0 (by decide)

/-- C5 counterexample: scanning `fileBad2001` aborts with a FormatError on
its malformed second data line — but the records cached before that line
stay committed under file-year 2001, and the next `LunarDateToDate` lookup
into that file-year treats the partial cache as complete: it performs no
read of file 2001 (only of 2002) and answers NotFound instead of
re-attempting the scan, so the scan is not all-or-nothing. -/
theorem C5_counterexample :
    (LunarDateToDate envE emptyHandler ⟨2001, 1, 1⟩).2.2 = .error .fmtErr ∧
    alistGet 2001
      (LunarDateToDate envE emptyHandler ⟨2001, 1, 1⟩).1.cacheMap ≠ none ∧
    (LunarDateToDate envE (LunarDateToDate envE emptyHandler ⟨2001, 1, 1⟩).1
      ⟨2001, 1, 3⟩).2.1 = [2002] ∧
    (LunarDateToDate envE (LunarDateToDate envE emptyHandler ⟨2001, 1, 1⟩).1
      ⟨2001, 1, 3⟩).2.2 = .error .notFound := by
  decide

/-- C5 (amended): a line whose date field fails to parse makes `parseLine`
return a FormatError, which aborts the scan at that line and is propagated
unchanged through `LunarDateToDate` (together with the partially filled
handler the scan left behind); the scan is not all-or-nothing — a loaded
(possibly partially scanned) file-year is treated as complete by subsequent
`LunarDateToDate` lookups, which neither re-read nor re-scan it. -/
theorem C5_format_error (env : Env) (h h1 : Handler) (d : Date)
    (line : String) (f : List String) (rest : List String)
    (fy ly lm lm1 : Int) (q : List Nat) (ri : Option Nat) (dtl : Bool)
    (f0 f1 : String) (fr : List String) (dec : Decoded) :
    (goFields line = f0 :: f1 :: fr → decodeNumeral f1.data = some dec →
      goParseDate (paddedFormat fy) f0 = none →
      ∃ h', parseLine h line fy ly lm q = .fmtError h') ∧
    (∀ h', parseLine h line fy ly lm q = .fmtError h' →
      findAux d dtl fy h (line :: rest) ly lm q ri = (h', lm, .error .fmtErr)) ∧
    (alistGet d.year h.cacheMap = none → env d.year = some f →
      find h f d false d.year (d.year - 1) 0 = (h1, lm1, .error .fmtErr) →
      LunarDateToDate env h d = (h1, [d.year], .error .fmtErr)) ∧
    (∀ c c', alistGet d.year h.cacheMap = some c →
      alistGet d c.lunarDateCache = none →
      alistGet (d.year + 1) h.cacheMap = some c' →
      alistGet d c'.lunarDateCache = none →
      LunarDateToDate env h d = (h, [], .error .notFound)) := by
  refine ⟨?_, ?_, ?_, ?_⟩
  · intro hfs hdec hpd
    have hstep : parseLine h line fy ly lm q =
        .fmtError (parseOutHandler (parseLine h line fy ly lm q) h) := by
      simp only [parseLine, hfs, hdec, parseLineRest, parseLineCore, hpd,
        parseOutHandler]
    exact ⟨_, hstep⟩
  · intro h' hpl
    simp only [findAux, hpl]
  · intro hnl henv hfind
    simp only [LunarDateToDate, Handler.queryCache, hnl, henv, hfind]
    rw [if_neg (fun w => LErr.noConfusion w)]
  · intro c c' hc hl hc' hl2
    simp [LunarDateToDate, LunarDateToDatePhase2, Handler.queryCache,
      hc, hl, hc', hl2]

/-- C5 witness: the propagation conjunct applied to the failing scan of
`fileBad2001`: the error surfaces as a FormatError with exactly one read. -/
theorem C5_witness :
    LunarDateToDate envE emptyHandler ⟨2001, 1, 1⟩ =
      (findE1.1, [2001], .error .fmtErr) :=
  (C5_format_error envE emptyHandler findE1.1 ⟨2001, 1, 1⟩ "" fileBad2001 []
    2001 2000 0 findE1.2.1 [] none false "" "" [] ⟨0, false, false⟩).2.2.1
    (by decide) (by decide) (by decide)

/-- C6 counterexample: against `envC`, the actual `LunarDateToDate` lookup
for (2001, 2, 5) answers NotFound, because the second file-year attempt
starts with the running lunar month left by the first scan (5), which makes
the pre-marker day line of file 2002 an immediately cached month-5 record;
running that same second scan fresh with the month sentinel 0 instead defers
the day line and finds the queried date.  State is therefore carried between
the two attempts. -/
theorem C6_counterexample :
    (LunarDateToDate envC emptyHandler ⟨2001, 2, 5⟩).2.2 = .error .notFound ∧
    findC1.2.1 = 5 ∧
    (find findC1.1 fileY2002c ⟨2001, 2, 5⟩ false 2002 2001 0).2.2 =
      .ok ⟨⟨2002, 1, 2⟩, ⟨2001, 3, 1⟩, 2, "二", ""⟩ := by
  decide

/-- C6 (amended): the single `lunarMonth` variable is shared by address
between the two file-year attempts of `LunarDateToDate`: when the first
attempt scanned and ended in NotFound, the second scan starts with the
running lunar month the first scan left behind; it starts with the sentinel
0 exactly when the first attempt performed no scan (its file-year was
already loaded). -/
theorem C6_shared_month (env : Env) (h h1 : Handler) (d : Date)
    (f f1 : List String) (lm1 : Int) :
    (alistGet d.year h.cacheMap = none → env d.year = some f →
      find h f d false d.year (d.year - 1) 0 = (h1, lm1, .error .notFound) →
      alistGet (d.year + 1) h1.cacheMap = none → env (d.year + 1) = some f1 →
      (LunarDateToDate env h d).2.2 =
        (find h1 f1 d false (d.year + 1) d.year lm1).2.2) ∧
    (∀ c, alistGet d.year h.cacheMap = some c →
      alistGet d c.lunarDateCache = none →
      alistGet (d.year + 1) h.cacheMap = none → env (d.year + 1) = some f1 →
      (LunarDateToDate env h d).2.2 =
        (find h f1 d false (d.year + 1) d.year 0).2.2) := by
  constructor
  · intro hnl henv hfind hnl2 henv2
    simp only [LunarDateToDate, LunarDateToDatePhase2, Handler.queryCache,
      hnl, henv, hfind, hnl2, henv2, eq_self_iff_true, if_true]
  · intro c hc hl hnl2 henv2
    simp [LunarDateToDate, LunarDateToDatePhase2, Handler.queryCache,
      hc, hl, hnl2, henv2]

/-- C6 witness: the first (scan-then-NotFound) conjunct instantiated on
`envC`: the overall outcome equals the second scan's outcome when that scan
is entered with the carried lunar month 5. -/
theorem C6_witness :
    (LunarDateToDate envC emptyHandler ⟨2001, 2, 5⟩).2.2 =
      (find findC1.1 fileY2002c ⟨2001, 2, 5⟩ false 2002 2001 findC1.2.1).2.2 :=
  (C6_shared_month envC emptyHandler findC1.1 ⟨2001, 2, 5⟩ fileY2001c
    fileY2002c findC1.2.1).1 (by decide) (by decide) (by decide) (by decide)
    (by decide)

/-- On a line with a third field, the post-flush tail returns either a
format error carrying the flushed handler or a success. -/
theorem parseLineCore_cons_cases (h1 : Handler) (dt? : Option Date)
    (f2 : String) (rest2 : List String) (fy ly lm ld : Int) (flushed : Bool)
    (q : List Nat) :
    (∃ h', parseLineCore h1 dt? (f2 :: rest2) fy ly lm ld flushed q =
      .fmtError h') ∨
    ∃ h' rid q', parseLineCore h1 dt? (f2 :: rest2) fy ly lm ld flushed q =
      .ok h' rid q' := by
  rcases dt? with _ | dt
  · exact Or.inl ⟨h1, rfl⟩
  · right
    simp only [parseLineCore]
    by_cases hv : lm = 0
    · rw [if_pos hv]
      exact ⟨_, _, _, rfl⟩
    · rw [if_neg hv]
      exact ⟨_, _, _, rfl⟩

/-- The post-flush tail never shrinks the flushed handler: existing heap
cells are untouched and the file-year's cache tables only gain bindings. -/
theorem parseLineCore_extends (h1 h' : Handler) (dt? : Option Date)
    (f2 : String) (rest2 : List String) (fy ly lm ld : Int) (flushed : Bool)
    (q : List Nat)
    (hcase :
      parseLineCore h1 dt? (f2 :: rest2) fy ly lm ld flushed q =
        .fmtError h' ∨
      ∃ rid q', parseLineCore h1 dt? (f2 :: rest2) fy ly lm ld flushed q =
        .ok h' rid q') :
    (∀ i, i < h1.heap.length →
      h'.heap.getD i dummyResult = h1.heap.getD i dummyResult) ∧
    ∀ c, alistGet fy h1.cacheMap = some c →
      ∃ c', alistGet fy h'.cacheMap = some c' ∧
        (∀ k, alistGet k c.dateCache ≠ none → alistGet k c'.dateCache ≠ none) ∧
        (∀ k, alistGet k c.lunarDateCache ≠ none →
          alistGet k c'.lunarDateCache ≠ none) := by
  rcases dt? with _ | dt
  · rcases hcase with he | ⟨rid, q', he⟩
    · simp only [parseLineCore] at he
      injection he with hh
      subst hh
      exact ⟨fun i _ => rfl, fun c hc => ⟨c, hc, fun k hk => hk, fun k hk => hk⟩⟩
    · simp only [parseLineCore] at he
      exact ParseOut.noConfusion he
  · rcases hcase with he | ⟨rid, q', he⟩
    · simp only [parseLineCore] at he
      by_cases hv : lm = 0
      · rw [if_pos hv] at he
        exact ParseOut.noConfusion he
      · rw [if_neg hv] at he
        exact ParseOut.noConfusion he
    · simp only [parseLineCore] at he
      by_cases hv : lm = 0
      · rw [if_pos hv] at he
        injection he with hh hrid hq'
        subst hh
        constructor
        · intro i hi
          exact getD_append_of_lt _ _ _ _ hi
        · intro c hc
          exact ⟨c, hc, fun k hk => hk, fun k hk => hk⟩
      · rw [if_neg hv] at he
        injection he with hh hrid hq'
        subst hh
        constructor
        · intro i hi
          rw [cacheIns_heap]
          exact getD_append_of_lt _ _ _ _ hi
        · intro c hc
          have hcm := cacheIns_get_self
            (⟨h1.heap ++
              [{ date := dt
                 lunarDate := ⟨ly, lm, ld⟩
                 weekday := lunarMap (f2.data.getLastD ' ')
                 weekdayRaw := f2
                 solarTerm := match rest2 with | [] => "" | s :: _ => s }],
              h1.cacheMap⟩ : Handler) fy h1.heap.length
          rw [hc] at hcm
          refine ⟨_, hcm, ?_, ?_⟩
          · intro k hk
            exact alistGet_alistSet_ne_none _ _ hk
          · intro k hk
            exact alistGet_alistSet_ne_none _ _ hk

/-- C2 counterexample: a month-marker line whose marker decodes to 0 (天月)
arriving while the queue is non-empty does flush — the queued record's month
is rewritten (to 0 − 1 = −1) and it is cached — but the queue is NOT
cleared: the new record is appended to the original (pre-flush) queue, so
the parser returns the queue [0, 1] where the claim requires []. -/
theorem C2_counterexample :
    decodeNumeral "天月".data = some ⟨0, true, false⟩ ∧
    parseOutQueue (parseLine handlerQ lineZeroMarker 2001 2000 0 [0]) =
      some [0, 1] := by
  decide

/-- C2 (amended): when a month-marker line is parsed while the queue is
non-empty, every queued record's lunar month is set to the decoded month
minus 1 (with 0 wrapping to 12), each such record is inserted into both
cache tables of the file-year keyed by its rewritten dates, and — provided
the marker's decoded month value is non-zero — a successful parse returns
the empty queue.  (When the marker decodes to month 0 the flushed records
remain in the returned queue together with the new record, as the
counterexample shows.) -/
theorem C2_flush_semantics (h : Handler) (line : String) (fy ly lm tmp : Int)
    (queue : List Nat) (f0 f1 f2 : String) (rest : List String) (dec : Decoded)
    (hf : goFields line = f0 :: f1 :: f2 :: rest)
    (hd : decodeNumeral f1.data = some dec)
    (hm : dec.isMonth = true)
    (hq : queue ≠ [])
    (hids : ∀ id ∈ queue, id < h.heap.length)
    (htmp : tmp = if dec.value - 1 = 0 then 12 else dec.value - 1) :
    (∀ id ∈ queue,
      ((parseOutHandler (parseLine h line fy ly lm queue) h).heap.getD id
        dummyResult).lunarDate.month = tmp ∧
      ∃ c, alistGet fy
          (parseOutHandler (parseLine h line fy ly lm queue) h).cacheMap =
          some c ∧
        alistGet ((parseOutHandler (parseLine h line fy ly lm queue) h).heap.getD
          id dummyResult).date c.dateCache ≠ none ∧
        alistGet ((parseOutHandler (parseLine h line fy ly lm queue) h).heap.getD
          id dummyResult).lunarDate c.lunarDateCache ≠ none) ∧
    (∀ h' rid q', parseLine h line fy ly lm queue = .ok h' rid q' →
      dec.value ≠ 0 → q' = []) := by
  subst htmp
  have hstep : parseLine h line fy ly lm queue =
      parseLineCore
        (flushQueue h fy (if dec.value - 1 = 0 then 12 else dec.value - 1)
          queue)
        (goParseDate (paddedFormat fy) f0) (f2 :: rest) fy
        (if dec.yearInc = true then ly + 1 else ly) dec.value 1 true queue := by
    simp [parseLine, hf, hd, parseLineRest, hm, hq]
  constructor
  · intro id hid
    have hidlt : id < h.heap.length := hids id hid
    have hidlt1 : id <
        (flushQueue h fy (if dec.value - 1 = 0 then 12 else dec.value - 1)
          queue).heap.length := by
      rw [flushQueue_heap_length]
      exact hidlt
    have hcase :
        parseLineCore
          (flushQueue h fy (if dec.value - 1 = 0 then 12 else dec.value - 1)
            queue)
          (goParseDate (paddedFormat fy) f0) (f2 :: rest) fy
          (if dec.yearInc = true then ly + 1 else ly) dec.value 1 true queue =
          .fmtError (parseOutHandler (parseLine h line fy ly lm queue) h) ∨
        ∃ rid q', parseLineCore
          (flushQueue h fy (if dec.value - 1 = 0 then 12 else dec.value - 1)
            queue)
          (goParseDate (paddedFormat fy) f0) (f2 :: rest) fy
          (if dec.yearInc = true then ly + 1 else ly) dec.value 1 true queue =
          .ok (parseOutHandler (parseLine h line fy ly lm queue) h) rid q' := by
      rcases parseLineCore_cons_cases
        (flushQueue h fy (if dec.value - 1 = 0 then 12 else dec.value - 1)
          queue)
        (goParseDate (paddedFormat fy) f0) f2 rest fy
        (if dec.yearInc = true then ly + 1 else ly) dec.value 1 true queue with
        ⟨hx, hcc⟩ | ⟨hx, rid, q', hcc⟩
      · left
        rw [hstep, hcc]
        rfl
      · right
        refine ⟨rid, q', ?_⟩
        rw [hstep, hcc]
        rfl
    obtain ⟨hext, hcext⟩ := parseLineCore_extends
      (flushQueue h fy (if dec.value - 1 = 0 then 12 else dec.value - 1) queue)
      (parseOutHandler (parseLine h line fy ly lm queue) h)
      (goParseDate (paddedFormat fy) f0) f2 rest fy
      (if dec.yearInc = true then ly + 1 else ly) dec.value 1 true queue hcase
    have hcell : (parseOutHandler (parseLine h line fy ly lm queue) h).heap.getD
        id dummyResult =
        (flushQueue h fy (if dec.value - 1 = 0 then 12 else dec.value - 1)
          queue).heap.getD id dummyResult := hext id hidlt1
    obtain ⟨c, hcfy, hd1, hl1⟩ := flushQueue_keys fy
      (if dec.value - 1 = 0 then 12 else dec.value - 1) queue h id hid hidlt
    obtain ⟨c', hc'fy, hmono1, hmono2⟩ := hcext c hcfy
    refine ⟨?_, c', hc'fy, ?_, ?_⟩
    · rw [hcell]
      exact flushQueue_month fy _ queue h id hid hidlt
    · rw [hcell]
      exact hmono1 _ hd1
    · rw [hcell]
      exact hmono2 _ hl1
  · intro h' rid q' hok hvne
    rw [hstep] at hok
    rcases hpd : goParseDate (paddedFormat fy) f0 with _ | dt
    · rw [hpd] at hok
      exact ParseOut.noConfusion hok
    · rw [hpd] at hok
      simp only [parseLineCore] at hok
      rw [if_neg hvne] at hok
      injection hok with hh hrid hq'
      exact hq'.symm

/-- C2 witness: the amended flush semantics applied to a queued record and
the marker line 三月 (decoded month 3): the record's month becomes 2 and it
is reachable in both tables of file-year 2001's cache. -/
theorem C2_witness :
    ((parseOutHandler (parseLine handlerQ lineMarker3 2001 2000 0 [0])
        handlerQ).heap.getD 0 dummyResult).lunarDate.month = 2 ∧
    ∃ c, alistGet 2001
        (parseOutHandler (parseLine handlerQ lineMarker3 2001 2000 0 [0])
          handlerQ).cacheMap = some c ∧
      alistGet ((parseOutHandler (parseLine handlerQ lineMarker3 2001 2000 0 [0])
        handlerQ).heap.getD 0 dummyResult).date c.dateCache ≠ none ∧
      alistGet ((parseOutHandler (parseLine handlerQ lineMarker3 2001 2000 0 [0])
        handlerQ).heap.getD 0 dummyResult).lunarDate c.lunarDateCache ≠ none :=
  (C2_flush_semantics handlerQ lineMarker3 2001 2000 0 2 [0] "2001年01月08日"
    "三月" "一" [] ⟨3, true, false⟩ (by decide) (by decide) (by decide)
    (by decide) (by decide) (by decide)).1 0 (by decide)

theorem matchesTerm_true (year : Int) (filt : Option (Result → Bool))
    (r : Result) (hmt : matchesTerm year filt r = true) :
    r.solarTerm ≠ "" ∧ r.lunarDate.year = year ∧
      ∀ f, filt = some f → f r = true := by
  simp only [matchesTerm, Bool.and_eq_true, bne_iff_ne, beq_iff_eq] at hmt
  obtain ⟨⟨h1, h2⟩, h3⟩ := hmt
  refine ⟨h1, h2, ?_⟩
  intro f hf
  rw [hf] at h3
  exact h3

theorem collectTerms_mem (h : Handler) (year y : Int)
    (filt : Option (Result → Bool)) (r : Result)
    (hr : r ∈ collectTerms h year y filt) :
    matchesTerm year filt r = true := by
  simp only [collectTerms, List.mem_filterMap] at hr
  obtain ⟨p, hp, hcond⟩ := hr
  by_cases hmt : matchesTerm year filt (h.heap.getD p.2 dummyResult) = true
  · rw [if_pos hmt] at hcond
    injection hcond with he
    rw [← he]
    exact hmt
  · rw [if_neg hmt] at hcond
    exact Option.noConfusion hcond

theorem getSolarTermsGo_mem (env : Env) (h : Handler) (year : Int)
    (filt : Option (Result → Bool)) (h' : Handler) (res : List Result)
    (hrun : getSolarTermsGo env h year filt = (h', .ok res)) :
    ∀ r ∈ res, matchesTerm year filt r = true := by
  rcases e1 : DateToLunarDate env h ⟨year, 1, 1⟩ with ⟨h1, rd1, out1⟩
  rcases out1 with e | r1
  · simp only [getSolarTermsGo, e1] at hrun
    injection hrun with _ hx
    exact Except.noConfusion hx
  · rcases e2 : DateToLunarDate env h1 ⟨year + 1, 1, 1⟩ with ⟨h2, rd2, out2⟩
    rcases out2 with e | r2
    · simp only [getSolarTermsGo, e1, e2] at hrun
      injection hrun with _ hx
      exact Except.noConfusion hx
    · simp only [getSolarTermsGo, e1, e2] at hrun
      injection hrun with _ hx
      injection hx with hres
      intro r hr
      rw [← hres] at hr
      rcases List.mem_append.1 hr with hr1 | hr2
      · exact collectTerms_mem _ _ _ _ _ hr1
      · exact collectTerms_mem _ _ _ _ _ hr2

/-- C9: every record `GetSolarTerms` returns for a target lunar year has a
non-empty solar-term label and lunar year equal to the target, although it
collects over the two file-years `year` and `year + 1`; and when a name set
is supplied, only records whose label belongs to the set are returned. -/
theorem C9_solar_terms (env : Env) (h : Handler) (year : Int)
    (names : List String) (h' : Handler) (res : List Result)
    (hrun : GetSolarTermsGo env h year names = (h', .ok res)) :
    ∀ r ∈ res, r.solarTerm ≠ "" ∧ r.lunarDate.year = year ∧
      (names ≠ [] → r.solarTerm ∈ names) := by
  intro r hr
  by_cases hn : names = []
  · subst hn
    simp only [GetSolarTermsGo, if_pos rfl] at hrun
    obtain ⟨h1, h2, _⟩ := matchesTerm_true year none r
      (getSolarTermsGo_mem env h year none h' res hrun r hr)
    exact ⟨h1, h2, fun hne => absurd rfl hne⟩
  · simp only [GetSolarTermsGo, if_neg hn] at hrun
    obtain ⟨h1, h2, h3⟩ := matchesTerm_true year _ r
      (getSolarTermsGo_mem env h year _ h' res hrun r hr)
    refine ⟨h1, h2, fun _ => ?_⟩
    have hcont := h3 _ rfl
    simpa using hcont

/-- C9 witness: the query of `envT` for lunar year 2000 with the name set
[冬至] returns exactly the labelled record of file-year 2001 whose lunar
year is 2000; the theorem's guarantees hold of it. -/
theorem C9_witness :
    recT.solarTerm ≠ "" ∧ recT.lunarDate.year = 2000 ∧
      ((["冬至"] : List String) ≠ [] → recT.solarTerm ∈ ["冬至"]) :=
  C9_solar_terms envT emptyHandler 2000 ["冬至"] gstT.1 [recT] (by decide) recT
    (by decide)

end Lunar
